import Mathlib

/-!
# Storefront server (`server.js`): product catalogue and order submission

A shallow embedding of the three stateful request handlers of `server.js`

* `GET  /api/products`  (`getProducts`)
* `POST /api/products`  (`postProducts`)
* `POST /api/orders`    (`postOrders`)

over an explicit store holding the two persisted collections.

Modelling conventions.

* A request body is a parsed JSON value (`Json`); a JavaScript value that may
  be `undefined` is an `Option Json`, `none` standing for `undefined`.
* JavaScript numbers are modelled with exact arithmetic: a finite number is a
  rational, and `NaN`, `Infinity`, `-Infinity` are separate values (`JsNum`).
  A number literal past the range of a double, such as `1e999`, parses to an
  infinity. Signed zero and rounding are not modelled.
* The two conversions of the host runtime that the handlers reach through
  `Number(...)` - string to number and number to string - are fields of a
  `Runtime` record; every result below holds for every runtime.
* `Date.now()` and `new Date().toISOString()` are read from a `Clock` that
  travels with the request.
* A handler that throws is modelled by the outcome `uncaught`; the web
  framework turns it into an error reply, which is outside `server.js`.
* What reaches a file or a client goes through `JSON.stringify`, which
  prints `NaN` and the infinities as `null` (`serialise`). The payload of a
  reply is the value the handler hands to `res.json`; `wire` gives what the
  client receives. A list in the store stands for the text of its file, so
  reading it goes through `serialise` as well.
* A product file that the server did not write is not modelled.
-/

namespace Annsetu

/-! ## Values -/

/-- A JavaScript number under exact arithmetic. -/
inductive JsNum where
  | fin (q : ℚ)
  | nan
  | posInf
  | negInf
deriving DecidableEq

/-- A JavaScript value of the kinds JSON has. An object lists its own
properties, one per key. `JSON.parse` yields finite numbers and, for a literal
past the range such as `1e999`, an infinity; `NaN` only arises inside a
handler. -/
inductive Json where
  | null
  | bool (b : Bool)
  | num (x : JsNum)
  | str (s : String)
  | arr (xs : List Json)
  | obj (kvs : List (String × Json))

/-- A numeric field of a record: a number, or `null` once the record has been
through JSON with a number that is not finite. -/
inductive NumOrNull where
  | num (x : JsNum)
  | null

/-- An exception raised by the runtime. -/
inductive JsError where
  | typeError
deriving DecidableEq

/-- The host conversions used by `Number(...)`. -/
structure Runtime where
  /-- `StringToNumber`: the numeric value of a string, `NaN` if it has none. -/
  stringToNumber : String → JsNum
  /-- `Number::toString` on a finite number. -/
  numberToString : ℚ → String

/-- The two clock readings a handler takes: `Date.now()` in milliseconds and
`new Date().toISOString()`. -/
structure Clock where
  nowMs : Nat
  isoNow : String

/-- The digit of value `d < 36` in radix 36: `0`-`9`, then `a`-`z`. -/
def digit36 (d : Nat) : Char :=
  if d < 10 then Char.ofNat (48 + d) else Char.ofNat (87 + d)

/-- `n.toString(36)` for a non-negative integer. -/
def toString36 (n : Nat) : String :=
  if n = 0 then "0" else String.mk ((Nat.digits 36 n).reverse.map digit36)

namespace JsNum

/-- JavaScript `a * b`. -/
def mul : JsNum → JsNum → JsNum
  | fin a, fin b => fin (a * b)
  | nan, _ => nan
  | _, nan => nan
  | fin a, posInf => if a = 0 then nan else if 0 < a then posInf else negInf
  | fin a, negInf => if a = 0 then nan else if 0 < a then negInf else posInf
  | posInf, fin b => if b = 0 then nan else if 0 < b then posInf else negInf
  | negInf, fin b => if b = 0 then nan else if 0 < b then negInf else posInf
  | posInf, posInf => posInf
  | posInf, negInf => negInf
  | negInf, posInf => negInf
  | negInf, negInf => posInf

/-- JavaScript `a + b`. -/
def add : JsNum → JsNum → JsNum
  | fin a, fin b => fin (a + b)
  | nan, _ => nan
  | _, nan => nan
  | fin _, posInf => posInf
  | fin _, negInf => negInf
  | posInf, fin _ => posInf
  | negInf, fin _ => negInf
  | posInf, posInf => posInf
  | posInf, negInf => nan
  | negInf, posInf => nan
  | negInf, negInf => negInf

/-- JavaScript `a <= 0`. -/
def leZero : JsNum → Bool
  | fin a => decide (a ≤ 0)
  | nan => false
  | posInf => false
  | negInf => true

/-- JavaScript `a || 0` on a number: `NaN` and `0` are falsy. -/
def orZero : JsNum → JsNum
  | fin a => if a = 0 then fin 0 else fin a
  | nan => fin 0
  | posInf => posInf
  | negInf => negInf

/-- The number is strictly greater than zero. -/
def Positive : JsNum → Prop
  | fin a => 0 < a
  | nan => False
  | posInf => True
  | negInf => False

/-- The number is a positive integer. -/
def PositiveInteger (x : JsNum) : Prop :=
  ∃ n : Nat, 0 < n ∧ x = fin (n : ℚ)

/-- `Number::toString`: the names of the three non-finite numbers are fixed,
a finite number is printed by the runtime. -/
def toStr (rt : Runtime) : JsNum → String
  | fin q => rt.numberToString q
  | nan => "NaN"
  | posInf => "Infinity"
  | negInf => "-Infinity"

/-- JavaScript truthiness of a number: `0` and `NaN` are falsy. -/
def truthy : JsNum → Bool
  | fin q => decide (q ≠ 0)
  | nan => false
  | posInf => true
  | negInf => true

end JsNum

namespace NumOrNull

/-- `ToNumber` on a numeric field: `null` converts to `0`. -/
def toNumber : NumOrNull → JsNum
  | num x => x
  | null => .fin 0

/-- What `JSON.stringify` writes for a numeric field, read back: a finite
number as it is, `null` for `NaN`, `Infinity`, `-Infinity` and `null`. -/
def serialise : NumOrNull → NumOrNull
  | num (.fin q) => num (.fin q)
  | _ => null

end NumOrNull

namespace Json

/-- JavaScript truthiness of a parsed value. -/
def truthy : Json → Bool
  | null => false
  | bool b => b
  | num x => x.truthy
  | str s => decide (s ≠ "")
  | arr _ => true
  | obj _ => true

/-- The object has an own property named `k`. -/
def hasOwn (k : String) (kvs : List (String × Json)) : Bool :=
  kvs.any (fun kv => kv.1 == k)

/-- Reading `v.k` on a value other than `null`, for one of the property
names the handlers use (`items`, `customer`, `productId`, `quantity`, `name`,
`price`, `unit`, `stock`, `imageUrl`, `description`, `category`): an object
yields its own property, every other value yields `undefined`. -/
def field (v : Json) (k : String) : Option Json :=
  match v with
  | obj kvs => kvs.lookup k
  | _ => none

/-- Reading `v.k` on any parsed value: `null` has no properties and the read
throws a `TypeError`. -/
def getProp (v : Json) (k : String) : Except JsError (Option Json) :=
  match v with
  | null => .error .typeError
  | w => .ok (field w k)

/-- JavaScript `v || d` for a value that may be `undefined`. -/
def orElse (v : Option Json) (d : Json) : Json :=
  match v with
  | some x => if truthy x then x else d
  | none => d

mutual
/-- `ToString` on a parsed value. An object with an own `toString` property
(never callable after parsing) has no primitive value, which throws. -/
def toStr (rt : Runtime) : Json → Except JsError String
  | null => .ok "null"
  | bool b => .ok (if b then "true" else "false")
  | num x => .ok (x.toStr rt)
  | str s => .ok s
  | arr xs =>
    match elemStrs rt xs with
    | .error e => .error e
    | .ok ss => .ok (String.intercalate "," ss)
  | obj kvs =>
    if hasOwn "toString" kvs then .error .typeError else .ok "[object Object]"
/-- The strings `Array.prototype.join` puts between the separators: the empty
string for `null`, `ToString` of the element otherwise. -/
def elemStrs (rt : Runtime) : List Json → Except JsError (List String)
  | [] => .ok []
  | null :: xs =>
    match elemStrs rt xs with
    | .error e => .error e
    | .ok bs => .ok ("" :: bs)
  | x :: xs =>
    match toStr rt x with
    | .error e => .error e
    | .ok a =>
      match elemStrs rt xs with
      | .error e => .error e
      | .ok bs => .ok (a :: bs)
end

/-- `Number(v)` for a value that may be `undefined`. Arrays and objects are
first converted to a primitive: an array to its joined string, an object to
`"[object Object]"` (not numeric) unless it has an own `toString` property,
in which case the conversion throws. -/
def toNumber (rt : Runtime) : Option Json → Except JsError JsNum
  | none => .ok .nan
  | some null => .ok (.fin 0)
  | some (bool b) => .ok (.fin (if b then 1 else 0))
  | some (num x) => .ok x
  | some (str s) => .ok (rt.stringToNumber s)
  | some (arr xs) =>
    match toStr rt (arr xs) with
    | .error e => .error e
    | .ok s => .ok (rt.stringToNumber s)
  | some (obj kvs) =>
    if hasOwn "toString" kvs then .error .typeError else .ok .nan

mutual
/-- What `JSON.stringify` writes for a value, read back
(`JSON.parse(JSON.stringify(v))`): the same value with `null` in place of
every number that is not finite. -/
def serialise : Json → Json
  | null => null
  | bool b => bool b
  | num (.fin q) => num (.fin q)
  | num _ => null
  | str s => str s
  | arr xs => arr (serialiseList xs)
  | obj kvs => obj (serialiseFields kvs)
/-- `serialise` on the elements of an array. -/
def serialiseList : List Json → List Json
  | [] => []
  | x :: xs => serialise x :: serialiseList xs
/-- `serialise` on the property values of an object. -/
def serialiseFields : List (String × Json) → List (String × Json)
  | [] => []
  | (k, v) :: rest => (k, serialise v) :: serialiseFields rest
end

end Json

/-! ## Persisted records -/

/-- A product record, of the shape `POST /api/products` builds. -/
structure Product where
  id : String
  name : Json
  price : NumOrNull
  unit : Json
  stock : NumOrNull
  imageUrl : Json
  description : Json
  category : Json
  createdAt : String

/-- One normalised line of an order. -/
structure LineItem where
  productId : String
  name : Json
  price : NumOrNull
  quantity : NumOrNull
  lineTotal : NumOrNull

/-- An order record, of the shape `POST /api/orders` builds. -/
structure Order where
  id : String
  items : List LineItem
  total : NumOrNull
  customer : Json
  createdAt : String
  status : String

/-- A product as `JSON.stringify` writes it, read back. -/
def Product.serialise (p : Product) : Product :=
  { id := p.id
    name := p.name.serialise
    price := p.price.serialise
    unit := p.unit.serialise
    stock := p.stock.serialise
    imageUrl := p.imageUrl.serialise
    description := p.description.serialise
    category := p.category.serialise
    createdAt := p.createdAt }

/-- A line item as `JSON.stringify` writes it, read back. -/
def LineItem.serialise (l : LineItem) : LineItem :=
  { productId := l.productId
    name := l.name.serialise
    price := l.price.serialise
    quantity := l.quantity.serialise
    lineTotal := l.lineTotal.serialise }

/-- An order as `JSON.stringify` writes it, read back. -/
def Order.serialise (o : Order) : Order :=
  { id := o.id
    items := o.items.map LineItem.serialise
    total := o.total.serialise
    customer := o.customer.serialise
    createdAt := o.createdAt
    status := o.status }

/-- The two persisted collections (`products.json`, `orders.json`). Each list
stands for the text of its file, `JSON.stringify` of the list. -/
structure Store where
  products : List Product
  orders : List Order

/-- `readJsonSafe(PRODUCTS_FILE)`: the text of the file, parsed. -/
def readProducts (s : Store) : List Product :=
  s.products.map Product.serialise

/-- `readJsonSafe(ORDERS_FILE)`: the text of the file, parsed. -/
def readOrders (s : Store) : List Order :=
  s.orders.map Order.serialise

/-- `writeJsonSafe(PRODUCTS_FILE, data)`: the file is replaced by
`JSON.stringify(data)`. -/
def writeProducts (s : Store) (data : List Product) : Store :=
  { s with products := data.map Product.serialise }

/-- `writeJsonSafe(ORDERS_FILE, data)`: the file is replaced by
`JSON.stringify(data)`. -/
def writeOrders (s : Store) (data : List Order) : Store :=
  { s with orders := data.map Order.serialise }

/-! ## Replies -/

/-- The payload of a reply: the value the handler hands to `res.json`. -/
inductive ResBody where
  | error (message : String)
  | product (p : Product)
  | productList (ps : List Product)
  | orderOk (order : Order)

/-- The payload as the client receives it: `res.json` sends
`JSON.stringify` of the value. -/
def ResBody.wire : ResBody → ResBody
  | .error message => .error message
  | .product p => .product p.serialise
  | .productList ps => .productList (ps.map Product.serialise)
  | .orderOk order => .orderOk order.serialise

/-- A reply: status code and payload. -/
structure Response where
  status : Nat
  body : ResBody

/-- The reply as the client receives it. -/
def Response.wire (r : Response) : Response :=
  { status := r.status, body := r.body.wire }

/-- What a handler run ends with: a reply, or an exception it did not catch. -/
inductive Outcome where
  | reply (r : Response)
  | uncaught (e : JsError)

/-! ## Configuration and requests -/

/-- The process environment, as far as the server reads it. -/
structure Env where
  adminApiKey : Option String

/-- `const ADMIN_API_KEY = process.env.ADMIN_API_KEY || 'devkey'`. -/
def ADMIN_API_KEY (env : Env) : String :=
  match env.adminApiKey with
  | some k => if k = "" then "devkey" else k
  | none => "devkey"

/-- A request to `POST /api/products`. -/
structure ProductRequest where
  /-- The value of `req.header('x-api-key')`. -/
  headerApiKey : Option String
  /-- The value of `req.query.apiKey`. -/
  queryApiKey : Option Json
  /-- The value of `req.body`. -/
  body : Option Json
  clock : Clock

/-- A request to `POST /api/orders`. -/
structure OrderRequest where
  /-- The value of `req.body`. -/
  body : Option Json
  clock : Clock

/-- `req.body || {}`. -/
def bodyOrEmpty (body : Option Json) : Json :=
  Json.orElse body (.obj [])

/-! ## `GET /api/products` -/

/-- The handler of `GET /api/products`. -/
def getProducts (s : Store) : Outcome × Store :=
  let products := readProducts s
  (.reply ⟨200, .productList products⟩, s)

/-! ## `POST /api/products` -/

/-- `req.header('x-api-key') || req.query.apiKey`. -/
def suppliedKey (req : ProductRequest) : Option Json :=
  match req.headerApiKey with
  | some h => if h = "" then req.queryApiKey else some (.str h)
  | none => req.queryApiKey

/-- `apiKey !== key` for a string `key`. -/
def notStrictEq (apiKey : Option Json) (key : String) : Bool :=
  match apiKey with
  | some (.str k) => decide (k ≠ key)
  | _ => true

/-- `typeof stock === 'number' ? stock : 100`. -/
def stockOrDefault (stock : Option Json) : NumOrNull :=
  match stock with
  | some (.num x) => .num x
  | _ => .num (.fin 100)

/-- The handler of `POST /api/products`. -/
def postProducts (env : Env) (req : ProductRequest) (s : Store) : Outcome × Store :=
  let apiKey := suppliedKey req
  if notStrictEq apiKey (ADMIN_API_KEY env) then
    (.reply ⟨401, .error "Unauthorized"⟩, s)
  else
    let b := bodyOrEmpty req.body
    match b.field "name", b.field "price" with
    | some name, some (.num price) =>
      if !name.truthy then
        (.reply ⟨400, .error "Missing required fields: name, price"⟩, s)
      else
        let products := readProducts s
        let newProduct : Product :=
          { id := toString36 req.clock.nowMs
            name := name
            price := .num price
            unit := Json.orElse (b.field "unit") (.str "unit")
            stock := stockOrDefault (b.field "stock")
            imageUrl := Json.orElse (b.field "imageUrl") (.str "")
            description := Json.orElse (b.field "description") (.str "")
            category := Json.orElse (b.field "category") (.str "General")
            createdAt := req.clock.isoNow }
        let products := products ++ [newProduct]
        (.reply ⟨201, .product newProduct⟩, writeProducts s products)
    | _, _ => (.reply ⟨400, .error "Missing required fields: name, price"⟩, s)

/-! ## `POST /api/orders` -/

/-- `Map.prototype.set` on a map kept as its entries in insertion order. -/
def mapSet (m : List (String × Product)) (k : String) (v : Product) :
    List (String × Product) :=
  match m with
  | [] => [(k, v)]
  | (k0, v0) :: rest =>
    if k0 = k then (k0, v) :: rest else (k0, v0) :: mapSet rest k v

/-- `new Map(products.map(p => [p.id, p]))`. -/
def newProductMap (products : List Product) : List (String × Product) :=
  (products.map (fun p => (p.id, p))).foldl (fun m e => mapSet m e.1 e.2) []

/-- `productById.get(key)`: the keys are strings, so only a string finds one. -/
def mapGet (m : List (String × Product)) (key : Option Json) : Option Product :=
  match key with
  | some (.str k) => m.lookup k
  | _ => none

/-- One turn of the loop `for (const item of items)`, on the accumulators
`total` and `normalizedItems`. -/
def orderStep (rt : Runtime) (productById : List (String × Product)) (item : Json)
    (acc : JsNum × List LineItem) : Except JsError (JsNum × List LineItem) :=
  match item.getProp "productId" with
  | .error e => .error e
  | .ok pid =>
    let product := mapGet productById pid
    match item.getProp "quantity" with
    | .error e => .error e
    | .ok q =>
      match Json.toNumber rt q with
      | .error e => .error e
      | .ok n =>
        let quantity := n.orZero
        match product with
        | none => .ok acc
        | some product =>
          if quantity.leZero then .ok acc
          else
            let lineTotal := JsNum.mul product.price.toNumber quantity
            .ok (JsNum.add acc.1 lineTotal,
              acc.2 ++ [{ productId := product.id
                          name := product.name
                          price := product.price
                          quantity := .num quantity
                          lineTotal := .num lineTotal }])

/-- The loop `for (const item of items)`. -/
def orderLoop (rt : Runtime) (productById : List (String × Product)) :
    List Json → JsNum × List LineItem → Except JsError (JsNum × List LineItem)
  | [], acc => .ok acc
  | item :: rest, acc =>
    match orderStep rt productById item acc with
    | .error e => .error e
    | .ok acc1 => orderLoop rt productById rest acc1

/-- The handler of `POST /api/orders`. -/
def postOrders (rt : Runtime) (req : OrderRequest) (s : Store) : Outcome × Store :=
  let b := bodyOrEmpty req.body
  let customer := b.field "customer"
  match b.field "items" with
  | some (.arr (i :: is)) =>
    let products := readProducts s
    let productById := newProductMap products
    match orderLoop rt productById (i :: is) (.fin 0, []) with
    | .error e => (.uncaught e, s)
    | .ok (total, normalizedItems) =>
      if normalizedItems.length = 0 then
        (.reply ⟨400, .error "No valid items in order"⟩, s)
      else
        let orders := readOrders s
        let newOrder : Order :=
          { id := "ord_" ++ toString36 req.clock.nowMs
            items := normalizedItems
            total := .num total
            customer := Json.orElse customer (.obj [])
            createdAt := req.clock.isoNow
            status := "received" }
        let orders := orders ++ [newOrder]
        (.reply ⟨201, .orderOk newOrder⟩, writeOrders s orders)
  | _ => (.reply ⟨400, .error "Order must include items"⟩, s)


/-! ## Auxiliary definitions and sample data -/

/-- What the loop guarantees for a line it pushes, against the lookup map. -/
def LineFrom (m : List (String × Product)) (l : LineItem) : Prop :=
  ∃ (k : String) (p : Product), m.lookup k = some p ∧ l.productId = p.id ∧ l.name = p.name ∧
    l.price = p.price ∧
    l.lineTotal = .num (JsNum.mul l.price.toNumber l.quantity.toNumber) ∧
    ∃ q : JsNum, l.quantity = .num q ∧ JsNum.Positive q

/-- The running total after adding the given lines, in order. -/
def sumLines (t : JsNum) (ls : List LineItem) : JsNum :=
  ls.foldl (fun acc l => JsNum.add acc (JsNum.mul l.price.toNumber l.quantity.toNumber)) t

/-- The order record the handler builds from the loop results. -/
def orderOf (req : OrderRequest) (total : JsNum) (lines : List LineItem) : Order :=
  { id := "ord_" ++ toString36 req.clock.nowMs
    items := lines
    total := .num total
    customer := Json.orElse ((bodyOrEmpty req.body).field "customer") (.obj [])
    createdAt := req.clock.isoNow
    status := "received" }

/-- A runtime to evaluate examples with. It reads a string of decimal digits
as the integer it writes and the empty string as 0, and prints a
non-negative integer in decimal; every other string counts as not numeric
and every other number prints as the empty string, which the examples stay
clear of. The theorems are stated for an arbitrary runtime. -/
def sampleRuntime : Runtime :=
  { stringToNumber := fun s =>
      if s.data.all Char.isDigit then
        .fin ((s.data.foldl (fun n c => 10 * n + (c.toNat - 48)) 0 : Nat) : ℚ)
      else .nan
    numberToString := fun q =>
      if q.den = 1 ∧ 0 ≤ q.num then toString q.num.toNat else "" }

/-- A catalogue entry priced 2. -/
def kale : Product :=
  { id := "p1", name := .str "Kale", price := .num (.fin 2), unit := .str "bunch",
    stock := .num (.fin 40),
    imageUrl := .str "", description := .str "", category := .str "Greens",
    createdAt := "2024-05-01T09:00:00.000Z" }

/-- A catalogue entry priced 5/2. -/
def rice : Product :=
  { id := "p2", name := .str "Rice", price := .num (.fin (5 / 2)), unit := .str "kg",
    stock := .num (.fin 100),
    imageUrl := .str "", description := .str "", category := .str "General",
    createdAt := "2024-05-01T09:05:00.000Z" }

/-- A store with two products and no order. -/
def sampleStore : Store :=
  { products := [kale, rice], orders := [] }

/-- A clock reading. -/
def sampleClock : Clock :=
  { nowMs := 1714554000000, isoNow := "2024-05-01T09:00:00.000Z" }

/-- A request item `{productId, quantity}`. -/
def itemJson (productId : String) (quantity : Json) : Json :=
  .obj [("productId", .str productId), ("quantity", quantity)]

/-- An order request with the given items and a customer. -/
def orderRequest (items : List Json) : OrderRequest :=
  { body := some (.obj [("items", .arr items),
      ("customer", .obj [("name", .str "Asha"), ("email", .str "asha@example.org")])])
    clock := sampleClock }

/-- Three units of kale, one unit of an unknown product, two of rice. -/
def mixedRequest : OrderRequest :=
  orderRequest [itemJson "p1" (.num (.fin 3)), itemJson "nope" (.num (.fin 1)),
    itemJson "p2" (.str "2")]

/-- The order `mixedRequest` yields on `sampleStore`. -/
def mixedOrder : Order :=
  { id := "ord_" ++ toString36 1714554000000
    items := [⟨"p1", .str "Kale", .num (.fin 2), .num (.fin 3), .num (.fin 6)⟩,
      ⟨"p2", .str "Rice", .num (.fin (5 / 2)), .num (.fin 2), .num (.fin 5)⟩]
    total := .num (.fin 11)
    customer := .obj [("name", .str "Asha"), ("email", .str "asha@example.org")]
    createdAt := "2024-05-01T09:00:00.000Z"
    status := "received" }

/-- Kale in a quantity of one and a half. -/
def fractionalRequest : OrderRequest :=
  orderRequest [itemJson "p1" (.num (.fin (3 / 2)))]

/-- The order `fractionalRequest` yields on `sampleStore`. -/
def fractionalOrder : Order :=
  { id := "ord_" ++ toString36 1714554000000
    items := [⟨"p1", .str "Kale", .num (.fin 2), .num (.fin (3 / 2)), .num (.fin 3)⟩]
    total := .num (.fin 3)
    customer := .obj [("name", .str "Asha"), ("email", .str "asha@example.org")]
    createdAt := "2024-05-01T09:00:00.000Z"
    status := "received" }

/-- Two request items agree on `productId` and on `quantity`: reading either
property gives the same result on both. -/
def SameProductAndQuantity (x y : Json) : Prop :=
  x.getProp "productId" = y.getProp "productId" ∧ x.getProp "quantity" = y.getProp "quantity"

/-- The mixed request again, each item carrying a price and a name of the
client's choosing, from another customer at another time. -/
def tamperedRequest : OrderRequest :=
  { body := some (.obj [
      ("customer", .obj [("name", .str "Mallory")]),
      ("items", .arr [
        .obj [("productId", .str "p1"), ("quantity", .num (.fin 3)),
          ("price", .num (.fin (1 / 100)))],
        .obj [("name", .str "Free"), ("productId", .str "nope"), ("quantity", .num (.fin 1))],
        .obj [("productId", .str "p2"), ("lineTotal", .num (.fin 0)),
          ("quantity", .str "2")]])])
    clock := { nowMs := 1714557600000, isoNow := "2024-05-01T10:00:00.000Z" } }

/-- The sample catalogue with one order already stored. -/
def laterStore : Store :=
  { products := [kale, rice], orders := [fractionalOrder] }

/-- The product record the handler builds from a validated draft. -/
def productOf (req : ProductRequest) (name : Json) (price : JsNum) : Product :=
  { id := toString36 req.clock.nowMs
    name := name
    price := .num price
    unit := Json.orElse ((bodyOrEmpty req.body).field "unit") (.str "unit")
    stock := stockOrDefault ((bodyOrEmpty req.body).field "stock")
    imageUrl := Json.orElse ((bodyOrEmpty req.body).field "imageUrl") (.str "")
    description := Json.orElse ((bodyOrEmpty req.body).field "description") (.str "")
    category := Json.orElse ((bodyOrEmpty req.body).field "category") (.str "General")
    createdAt := req.clock.isoNow }

/-- Running `POST /api/products` on each request in turn. -/
def createAll (env : Env) : List ProductRequest → Store → List Outcome × Store
  | [], s => ([], s)
  | req :: rest, s =>
    let step := postProducts env req s
    let tail := createAll env rest step.2
    (step.1 :: tail.1, tail.2)

/-- The listing a client gets from `GET /api/products` on this store. -/
def listedProducts (s : Store) : List Product :=
  match (getProducts s).1 with
  | .reply r =>
    match r.wire.body with
    | .productList ps => ps
    | _ => []
  | _ => []

/-- The key a request supplies, read the way the interface description words
it: the `x-api-key` header, or the `apiKey` query parameter when the header
is absent. -/
def describedKey (req : ProductRequest) : Option Json :=
  match req.headerApiKey with
  | some h => some (.str h)
  | none => req.queryApiKey

/-- No `ADMIN_API_KEY` in the environment: the secret is `devkey`. -/
def defaultEnv : Env :=
  { adminApiKey := none }

/-- The draft `{name: "Kale", price: 2.0}`. -/
def kaleDraft : Json :=
  .obj [("name", .str "Kale"), ("price", .num (.fin 2))]

/-- A creation request carrying the key `devkey` in the `x-api-key` header. -/
def adminRequest (draft : Json) : ProductRequest :=
  { headerApiKey := some "devkey", queryApiKey := none, body := some draft, clock := sampleClock }

/-- A creation request with an empty `x-api-key` header and `?apiKey=devkey`. -/
def emptyHeaderRequest : ProductRequest :=
  { headerApiKey := some "", queryApiKey := some (.str "devkey"), body := some kaleDraft,
    clock := sampleClock }

/-- A creation request without any key. -/
def anonymousRequest : ProductRequest :=
  { headerApiKey := none, queryApiKey := none, body := some kaleDraft, clock := sampleClock }

/-- The record stored for `kaleDraft` at `sampleClock`. -/
def newKale : Product :=
  { id := toString36 1714554000000, name := .str "Kale", price := .num (.fin 2),
    unit := .str "unit", stock := .num (.fin 100), imageUrl := .str "", description := .str "", category := .str "General",
    createdAt := "2024-05-01T09:00:00.000Z" }

/-- The draft `{name: "", price: 2}`: a name is there, and it is empty. -/
def blankNameDraft : Json :=
  .obj [("name", .str ""), ("price", .num (.fin 2))]

/-- The draft `{name: "Kale", price: -1}`. -/
def negativeDraft : Json :=
  .obj [("name", .str "Kale"), ("price", .num (.fin (-1)))]

/-- The record stored for `negativeDraft` at `sampleClock`. -/
def negativeKale : Product :=
  { id := toString36 1714554000000, name := .str "Kale", price := .num (.fin (-1)),
    unit := .str "unit", stock := .num (.fin 100), imageUrl := .str "", description := .str "", category := .str "General",
    createdAt := "2024-05-01T09:00:00.000Z" }

/-- A store with nothing in it. -/
def emptyStore : Store :=
  { products := [], orders := [] }

/-- A request whose only item is `null`. -/
def nullItemRequest : OrderRequest :=
  orderRequest [.null]

/-- Three units of kale, then a `null` item. -/
def kaleThenNullRequest : OrderRequest :=
  orderRequest [itemJson "p1" (.num (.fin 3)), .null]

/-- Only identifiers of no stored product. -/
def unknownOnlyRequest : OrderRequest :=
  orderRequest [itemJson "nope" (.num (.fin 1)), itemJson "gone" (.num (.fin 2))]

/-- The draft `{name: "Oats", price: 3.5, unit: "kg", stock: 12}`. -/
def oatsDraft : Json :=
  .obj [("name", .str "Oats"), ("price", .num (.fin (7 / 2))), ("unit", .str "kg"),
    ("stock", .num (.fin 12))]

/-- An authorised request for `oatsDraft`, one hour after `sampleClock`, with
the key in the query string. -/
def oatsRequest : ProductRequest :=
  { headerApiKey := none, queryApiKey := some (.str "devkey"), body := some oatsDraft,
    clock := { nowMs := 1714557600000, isoNow := "2024-05-01T10:00:00.000Z" } }

/-- The record stored for `oatsRequest`. -/
def newOats : Product :=
  { id := toString36 1714557600000, name := .str "Oats", price := .num (.fin (7 / 2)),
    unit := .str "kg", stock := .num (.fin 12), imageUrl := .str "", description := .str "", category := .str "General",
    createdAt := "2024-05-01T10:00:00.000Z" }



/-- Kale in the quantity `1e999`, which parses to `Infinity`, and rice in the
quantity 3/2. -/
def overflowRequest : OrderRequest :=
  orderRequest [itemJson "p1" (.num .posInf), itemJson "p2" (.num (.fin (3 / 2)))]

/-- The order the handler builds for `overflowRequest` on `sampleStore`. -/
def overflowOrder : Order :=
  { id := "ord_" ++ toString36 1714554000000
    items := [⟨"p1", .str "Kale", .num (.fin 2), .num .posInf, .num .posInf⟩,
      ⟨"p2", .str "Rice", .num (.fin (5 / 2)), .num (.fin (3 / 2)), .num (.fin (15 / 4))⟩]
    total := .num .posInf
    customer := .obj [("name", .str "Asha"), ("email", .str "asha@example.org")]
    createdAt := "2024-05-01T09:00:00.000Z"
    status := "received" }

/-- The draft `{name: "Gold", price: 1e999}`: the price parses to `Infinity`. -/
def goldDraft : Json :=
  .obj [("name", .str "Gold"), ("price", .num .posInf)]

/-- The record the handler builds for `goldDraft` at `sampleClock`. -/
def newGold : Product :=
  { id := toString36 1714554000000, name := .str "Gold", price := .num .posInf,
    unit := .str "unit", stock := .num (.fin 100), imageUrl := .str "", description := .str "",
    category := .str "General", createdAt := "2024-05-01T09:00:00.000Z" }

/-- The price of a product is a number greater than or equal to zero. -/
def NonNegativePrice (p : Product) : Prop :=
  ∃ q : ℚ, 0 ≤ q ∧ p.price = .num (.fin q)

/-! ## Theorems -/

/-! ## Serialisation -/

mutual
/-- Serialising twice is serialising once. -/
theorem Json.serialise_idem : ∀ v : Json, v.serialise.serialise = v.serialise
  | .null => rfl
  | .bool _ => rfl
  | .num (.fin _) => rfl
  | .num .nan => rfl
  | .num .posInf => rfl
  | .num .negInf => rfl
  | .str _ => rfl
  | .arr xs => by
    simp only [Json.serialise]
    rw [Json.serialiseList_idem xs]
  | .obj kvs => by
    simp only [Json.serialise]
    rw [Json.serialiseFields_idem kvs]
theorem Json.serialiseList_idem :
    ∀ xs : List Json, Json.serialiseList (Json.serialiseList xs) = Json.serialiseList xs
  | [] => rfl
  | x :: xs => by
    simp only [Json.serialiseList]
    rw [Json.serialise_idem x, Json.serialiseList_idem xs]
theorem Json.serialiseFields_idem :
    ∀ kvs : List (String × Json),
      Json.serialiseFields (Json.serialiseFields kvs) = Json.serialiseFields kvs
  | [] => rfl
  | (k, v) :: rest => by
    simp only [Json.serialiseFields]
    rw [Json.serialise_idem v, Json.serialiseFields_idem rest]
end

theorem NumOrNull.num_serialise_idem (x : NumOrNull) : x.serialise.serialise = x.serialise := by
  cases x with
  | null => rfl
  | num n => cases n <;> rfl

theorem Product.product_serialise_idem (p : Product) : p.serialise.serialise = p.serialise := by
  simp [Product.serialise, Json.serialise_idem, NumOrNull.num_serialise_idem]

theorem LineItem.line_serialise_idem (l : LineItem) : l.serialise.serialise = l.serialise := by
  simp [LineItem.serialise, Json.serialise_idem, NumOrNull.num_serialise_idem]

theorem Order.order_serialise_idem (o : Order) : o.serialise.serialise = o.serialise := by
  simp [Order.serialise, Json.serialise_idem, NumOrNull.num_serialise_idem, List.map_map,
    Function.comp_def, LineItem.line_serialise_idem]

theorem readProducts_writeProducts (s : Store) (data : List Product) :
    readProducts (writeProducts s data) = data.map Product.serialise := by
  simp [readProducts, writeProducts, List.map_map, Function.comp_def, Product.product_serialise_idem]

theorem readOrders_writeOrders (s : Store) (data : List Order) :
    readOrders (writeOrders s data) = data.map Order.serialise := by
  simp [readOrders, writeOrders, List.map_map, Function.comp_def, Order.order_serialise_idem]

theorem map_serialise_readProducts (s : Store) :
    (readProducts s).map Product.serialise = readProducts s := by
  simp [readProducts, List.map_map, Function.comp_def, Product.product_serialise_idem]

theorem map_serialise_readOrders (s : Store) :
    (readOrders s).map Order.serialise = readOrders s := by
  simp [readOrders, List.map_map, Function.comp_def, Order.order_serialise_idem]

/-! ## The loop and the outcomes of `POST /api/orders` -/

theorem JsNum.positive_orZero (n : JsNum) (h : n.orZero.leZero = false) :
    JsNum.Positive n.orZero := by
  cases n with
  | fin a =>
    by_cases ha : a = 0
    · simp [JsNum.orZero, JsNum.leZero, ha] at h
    · simp only [JsNum.orZero, ha, if_false, JsNum.leZero, decide_eq_false_iff_not, not_le] at h
      simpa [JsNum.orZero, ha, JsNum.Positive] using h
  | nan => simp [JsNum.orZero, JsNum.leZero] at h
  | posInf => simp [JsNum.orZero, JsNum.Positive]
  | negInf => simp [JsNum.orZero, JsNum.leZero] at h

theorem mapGet_some (m : List (String × Product)) (key : Option Json) (p : Product)
    (h : mapGet m key = some p) : ∃ k, key = some (.str k) ∧ m.lookup k = some p := by
  unfold mapGet at h
  split at h
  · exact ⟨_, rfl, h⟩
  · cases h

theorem mapSet_lookup (m : List (String × Product)) (k : String) (v : Product) (k1 : String) :
    (mapSet m k v).lookup k1 = if k1 = k then some v else m.lookup k1 := by
  induction m with
  | nil =>
    by_cases h : k1 = k
    · simp [mapSet, List.lookup, h]
    · have h2 : (k1 == k) = false := by simpa using h
      simp [mapSet, List.lookup, h, h2]
  | cons kv rest ih =>
    obtain ⟨k0, v0⟩ := kv
    by_cases h0 : k0 = k
    · subst h0
      by_cases h : k1 = k0
      · simp [mapSet, List.lookup, h]
      · have h2 : (k1 == k0) = false := by simpa using h
        simp [mapSet, List.lookup, h, h2]
    · by_cases h1 : k1 = k0
      · subst h1
        simp [mapSet, List.lookup, h0]
      · have h2 : (k1 == k0) = false := by simpa using h1
        simp [mapSet, List.lookup, h0, h2, ih]

/-- Every entry of the lookup map is a product of the catalogue under its
own identifier. -/
theorem newProductMap_lookup (products : List Product) (k : String) (p : Product)
    (h : (newProductMap products).lookup k = some p) : p ∈ products ∧ p.id = k := by
  unfold newProductMap at h
  have key : ∀ (ps : List Product) (m : List (String × Product)),
      (∀ q, m.lookup k = some q → q ∈ products ∧ q.id = k) →
      (∀ q ∈ ps, q ∈ products) →
      ((ps.map (fun p => (p.id, p))).foldl (fun m e => mapSet m e.1 e.2) m).lookup k = some p →
      p ∈ products ∧ p.id = k := by
    intro ps
    induction ps with
    | nil => intro m hm _ hl; exact hm p hl
    | cons a rest ih =>
      intro m hm hps hl
      simp only [List.map_cons, List.foldl_cons] at hl
      refine ih (mapSet m a.id a) ?_ (fun q hq => hps q (List.mem_cons_of_mem _ hq)) hl
      intro q hq
      rw [mapSet_lookup] at hq
      by_cases hk : k = a.id
      · rw [if_pos hk] at hq
        cases hq
        exact ⟨hps _ (List.mem_cons_self _ _), hk.symm⟩
      · rw [if_neg hk] at hq
        exact hm q hq
  exact key products [] (fun q hq => by simp [List.lookup] at hq) (fun q hq => hq) h

/-- One turn of the loop either leaves the accumulators alone or pushes one
line built from a product of the map, with a positive quantity. -/
theorem orderStep_ok (rt : Runtime) (m : List (String × Product)) (item : Json)
    (acc acc1 : JsNum × List LineItem) (h : orderStep rt m item acc = .ok acc1) :
    acc1 = acc ∨ ∃ l : LineItem, LineFrom m l ∧
      acc1 = (JsNum.add acc.1 (JsNum.mul l.price.toNumber l.quantity.toNumber),
        acc.2 ++ [l]) := by
  unfold orderStep at h
  split at h
  · cases h
  · rename_i pid hpid
    split at h
    · cases h
    · split at h
      · cases h
      · rename_i n hn
        simp only at h
        split at h
        · left; cases h; rfl
        · rename_i product hprod
          split at h
          · left; cases h; rfl
          · rename_i hq
            right
            obtain ⟨k, hk, hlook⟩ := mapGet_some m pid product hprod
            cases h
            exact ⟨⟨product.id, product.name, product.price, .num n.orZero,
                .num (JsNum.mul product.price.toNumber n.orZero)⟩,
              ⟨k, product, hlook, rfl, rfl, rfl, rfl, n.orZero, rfl,
                JsNum.positive_orZero n (by simpa using hq)⟩, rfl⟩

/-- The loop only appends lines, each built from a product of the map with a
positive quantity, and adds their products of price and quantity to the total
in the order it pushes them. -/
theorem orderLoop_ok (rt : Runtime) (m : List (String × Product)) :
    ∀ (items : List Json) (acc acc1 : JsNum × List LineItem),
      orderLoop rt m items acc = .ok acc1 →
      ∃ new : List LineItem, acc1.2 = acc.2 ++ new ∧ acc1.1 = sumLines acc.1 new ∧
        ∀ l ∈ new, LineFrom m l := by
  intro items
  induction items with
  | nil =>
    intro acc acc1 h
    simp only [orderLoop] at h
    cases h
    exact ⟨[], by simp, rfl, by simp⟩
  | cons item rest ih =>
    intro acc acc1 h
    simp only [orderLoop] at h
    split at h
    · cases h
    · rename_i acc2 hstep
      obtain ⟨new, h2, h1, hl⟩ := ih acc2 acc1 h
      rcases orderStep_ok rt m item acc acc2 hstep with heq | ⟨l, hline, heq⟩
      · subst heq
        exact ⟨new, h2, h1, hl⟩
      · subst heq
        refine ⟨l :: new, ?_, ?_, ?_⟩
        · simpa using h2
        · simpa [sumLines] using h1
        · intro l1 hl1
          rcases List.mem_cons.mp hl1 with rfl | hmem
          · exact hline
          · exact hl l1 hmem

/-- The four ways a run of `POST /api/orders` can end. -/
theorem postOrders_cases (rt : Runtime) (req : OrderRequest) (s : Store) :
    postOrders rt req s = (.reply ⟨400, .error "Order must include items"⟩, s) ∨
    (∃ e, postOrders rt req s = (.uncaught e, s)) ∨
    postOrders rt req s = (.reply ⟨400, .error "No valid items in order"⟩, s) ∨
    ∃ (items : List Json) (total : JsNum) (lines : List LineItem),
      (bodyOrEmpty req.body).field "items" = some (.arr items) ∧
      orderLoop rt (newProductMap (readProducts s)) items (.fin 0, []) = .ok (total, lines) ∧
      lines ≠ [] ∧
      postOrders rt req s =
        (.reply ⟨201, .orderOk (orderOf req total lines)⟩,
          writeOrders s (readOrders s ++ [orderOf req total lines])) := by
  unfold postOrders
  simp only
  split
  · rename_i i is hitems
    split
    · rename_i e hloop
      exact Or.inr (Or.inl ⟨e, rfl⟩)
    · rename_i total lines hloop
      split
      · exact Or.inr (Or.inr (Or.inl rfl))
      · rename_i hne
        refine Or.inr (Or.inr (Or.inr ⟨i :: is, total, lines, hitems, hloop, ?_, rfl⟩))
        intro hnil
        exact hne (by simp [hnil])
  · exact Or.inl rfl

/-- An accepted submission: what the reply and the new store are. -/
theorem postOrders_accepted (rt : Runtime) (req : OrderRequest) (s : Store) (r : Response)
    (h : (postOrders rt req s).1 = .reply r) (h201 : r.status = 201) :
    ∃ (items : List Json) (total : JsNum) (lines : List LineItem),
      (bodyOrEmpty req.body).field "items" = some (.arr items) ∧
      orderLoop rt (newProductMap (readProducts s)) items (.fin 0, []) = .ok (total, lines) ∧
      lines ≠ [] ∧
      r = ⟨201, .orderOk (orderOf req total lines)⟩ ∧
      (postOrders rt req s).2 =
        writeOrders s (readOrders s ++ [orderOf req total lines]) := by
  rcases postOrders_cases rt req s with hc | ⟨e, hc⟩ | hc | ⟨items, total, lines, hi, hl, hne, hc⟩
  · rw [hc] at h
    cases h
    simp at h201
  · rw [hc] at h
    cases h
  · rw [hc] at h
    cases h
    simp at h201
  · rw [hc] at h
    cases h
    exact ⟨items, total, lines, hi, hl, hne, rfl, by rw [hc]⟩

/-! ## Sample runs of `POST /api/orders` -/

theorem mixedRequest_run :
    postOrders sampleRuntime mixedRequest sampleStore =
      (.reply ⟨201, .orderOk mixedOrder⟩, { products := [kale, rice], orders := [mixedOrder] }) := by
  simp [postOrders, mixedRequest, orderRequest, sampleStore, bodyOrEmpty, Json.orElse, Json.truthy,
    JsNum.truthy, Json.field, List.lookup, readProducts, readOrders, writeOrders, newProductMap,
    mapSet, kale, rice, orderLoop, orderStep, Json.getProp, itemJson, mapGet, Json.toNumber,
    JsNum.orZero, JsNum.leZero, JsNum.mul, JsNum.add, sampleRuntime, mixedOrder, sampleClock,
    Product.serialise, Order.serialise, LineItem.serialise, Json.serialise, Json.serialiseList,
    Json.serialiseFields, NumOrNull.serialise, NumOrNull.toNumber]
  norm_num
  simp [LineItem.serialise, Json.serialise, NumOrNull.serialise]

theorem fractionalRequest_run (rt : Runtime) :
    postOrders rt fractionalRequest sampleStore =
      (.reply ⟨201, .orderOk fractionalOrder⟩,
        { products := [kale, rice], orders := [fractionalOrder] }) := by
  simp [postOrders, fractionalRequest, orderRequest, sampleStore, bodyOrEmpty, Json.orElse,
    Json.truthy, JsNum.truthy, Json.field, List.lookup, readProducts, readOrders, writeOrders,
    newProductMap, mapSet, kale, rice, orderLoop, orderStep, Json.getProp, itemJson, mapGet,
    Json.toNumber, JsNum.orZero, JsNum.leZero, JsNum.mul, JsNum.add, fractionalOrder, sampleClock,
    Product.serialise, Order.serialise, LineItem.serialise, Json.serialise, Json.serialiseList,
    Json.serialiseFields, NumOrNull.serialise, NumOrNull.toNumber]
  norm_num
  simp [LineItem.serialise, Json.serialise, NumOrNull.serialise]

theorem overflowRequest_run (rt : Runtime) :
    postOrders rt overflowRequest sampleStore =
      (.reply ⟨201, .orderOk overflowOrder⟩,
        { products := [kale, rice], orders := [overflowOrder.serialise] }) := by
  simp [postOrders, overflowRequest, orderRequest, sampleStore, bodyOrEmpty, Json.orElse,
    Json.truthy, JsNum.truthy, Json.field, List.lookup, readProducts, readOrders, writeOrders,
    newProductMap, mapSet, kale, rice, orderLoop, orderStep, Json.getProp, itemJson, mapGet,
    Json.toNumber, JsNum.orZero, JsNum.leZero, JsNum.mul, JsNum.add, overflowOrder, sampleClock,
    Product.serialise, Order.serialise, LineItem.serialise, Json.serialise, Json.serialiseList,
    Json.serialiseFields, NumOrNull.serialise, NumOrNull.toNumber]
  norm_num
  simp [LineItem.serialise, Json.serialise, NumOrNull.serialise]

theorem JsNum.not_positiveInteger_three_halves :
    ¬ JsNum.PositiveInteger (.fin (3 / 2)) := by
  rintro ⟨n, _, h⟩
  injection h with h
  have h2 : ((2 * n : Nat) : ℚ) = ((3 : Nat) : ℚ) := by
    push_cast
    linarith
  have h3 : 2 * n = 3 := by exact_mod_cast h2
  omega

/-! ## Order submission: totals, quantities, catalogue, frame -/

/-- C1: for every store, runtime and order request that is accepted with
status 201, the reply carries an order whose total is the sum, taken over
its line items in order starting from zero, of price times quantity, and
each line total is that line's price times its quantity (`price * quantity`
as JavaScript computes it on the line's fields, with exact arithmetic). -/
theorem order_total_is_sum_of_line_totals (rt : Runtime) (req : OrderRequest) (s : Store)
    (r : Response) (h : (postOrders rt req s).1 = .reply r) (h201 : r.status = 201) :
    ∃ o : Order, r.body = .orderOk o ∧
      o.total = .num (o.items.foldl
        (fun acc l => JsNum.add acc (JsNum.mul l.price.toNumber l.quantity.toNumber))
        (.fin 0)) ∧
      ∀ l ∈ o.items, l.lineTotal = .num (JsNum.mul l.price.toNumber l.quantity.toNumber) := by
  obtain ⟨items, total, lines, _, hloop, _, hr, _⟩ := postOrders_accepted rt req s r h h201
  obtain ⟨new, h2, h1, hl⟩ := orderLoop_ok rt _ items _ _ hloop
  simp only [List.nil_append] at h2
  subst h2
  subst hr
  refine ⟨orderOf req total lines, rfl, ?_, ?_⟩
  · simpa [orderOf, sumLines] using h1
  · intro l hmem
    obtain ⟨_, _, _, _, _, _, hlt, _⟩ := hl l hmem
    exact hlt

/-- Witness for C1: the mixed request on the sample store is accepted, and
its order has total 11 = 2 * 3 + 5/2 * 2. -/
theorem order_total_is_sum_of_line_totals_witness :
    (postOrders sampleRuntime mixedRequest sampleStore).1 = .reply ⟨201, .orderOk mixedOrder⟩ ∧
    ∃ o : Order, (⟨201, .orderOk mixedOrder⟩ : Response).body = .orderOk o ∧
      o.total = .num (o.items.foldl
        (fun acc l => JsNum.add acc (JsNum.mul l.price.toNumber l.quantity.toNumber))
        (.fin 0)) ∧
      ∀ l ∈ o.items, l.lineTotal = .num (JsNum.mul l.price.toNumber l.quantity.toNumber) :=
  ⟨by rw [mixedRequest_run],
    order_total_is_sum_of_line_totals sampleRuntime mixedRequest sampleStore
      ⟨201, .orderOk mixedOrder⟩ (by rw [mixedRequest_run]) rfl⟩

/-- C9, as stated, fails: whatever the runtime, the request for one and a
half units of kale is accepted; its order reaches the client as the handler
built it, and the quantity 3/2 of its line is not a positive integer. -/
theorem fractional_quantity_is_accepted :
    (∀ rt : Runtime, (postOrders rt fractionalRequest sampleStore).1 =
      .reply ⟨201, .orderOk fractionalOrder⟩) ∧
    (⟨201, .orderOk fractionalOrder⟩ : Response).wire = ⟨201, .orderOk fractionalOrder⟩ ∧
    ∃ l ∈ fractionalOrder.items, l.quantity = .num (.fin (3 / 2)) ∧
      ¬ JsNum.PositiveInteger (.fin (3 / 2)) :=
  ⟨fun rt => by rw [fractionalRequest_run],
    by simp [Response.wire, ResBody.wire, fractionalOrder, Order.serialise, LineItem.serialise,
      Json.serialise, Json.serialiseFields, NumOrNull.serialise],
    ⟨⟨"p1", .str "Kale", .num (.fin 2), .num (.fin (3 / 2)), .num (.fin 3)⟩,
      by simp [fractionalOrder], rfl, JsNum.not_positiveInteger_three_halves⟩⟩

theorem NumOrNull.serialise_positive (q : JsNum) (h : JsNum.Positive q) :
    (∃ a : ℚ, 0 < a ∧ (NumOrNull.num q).serialise = .num (.fin a)) ∨
      (q = .posInf ∧ (NumOrNull.num q).serialise = .null) := by
  cases q with
  | fin a => exact Or.inl ⟨a, h, rfl⟩
  | nan => exact absurd h (by simp [JsNum.Positive])
  | posInf => exact Or.inr ⟨rfl, rfl⟩
  | negInf => exact absurd h (by simp [JsNum.Positive])

/-- C9, amended: for every store, runtime and accepted order request, the
quantity the handler computes for every line item of the order is a number
greater than zero - it need not be an integer and may be `Infinity` - and in
the order as the client receives it (and as it is stored) the quantity of
every line item is a finite number greater than zero, or `null`, which
stands for a quantity of `Infinity`. -/
theorem order_quantities_are_positive (rt : Runtime) (req : OrderRequest) (s : Store)
    (r : Response) (h : (postOrders rt req s).1 = .reply r) (h201 : r.status = 201) :
    ∃ o : Order, r.body = .orderOk o ∧ r.wire.body = .orderOk o.serialise ∧
      (∀ l ∈ o.items, ∃ q : JsNum, l.quantity = .num q ∧ JsNum.Positive q) ∧
      (∀ l ∈ o.serialise.items,
        (∃ a : ℚ, 0 < a ∧ l.quantity = .num (.fin a)) ∨ l.quantity = .null) := by
  obtain ⟨items, total, lines, _, hloop, _, hr, _⟩ := postOrders_accepted rt req s r h h201
  obtain ⟨new, h2, _, hl⟩ := orderLoop_ok rt _ items _ _ hloop
  simp only [List.nil_append] at h2
  subst h2
  subst hr
  have hq : ∀ l ∈ (orderOf req total lines).items,
      ∃ q : JsNum, l.quantity = .num q ∧ JsNum.Positive q := by
    intro l hmem
    obtain ⟨_, _, _, _, _, _, _, hpos⟩ := hl l hmem
    exact hpos
  refine ⟨orderOf req total lines, rfl, rfl, hq, ?_⟩
  intro l hmem
  simp only [Order.serialise, List.mem_map] at hmem
  obtain ⟨l0, hl0, rfl⟩ := hmem
  obtain ⟨q, hq0, hpos⟩ := hq l0 hl0
  simp only [LineItem.serialise, hq0]
  rcases NumOrNull.serialise_positive q hpos with ⟨a, ha, hs⟩ | ⟨_, hs⟩
  · exact Or.inl ⟨a, ha, hs⟩
  · exact Or.inr hs

/-- Witness for the amended C9: kale in the quantity `1e999` and rice in the
quantity 3/2. The order is accepted; the client receives the quantities
`null` and 3/2. -/
theorem order_quantities_are_positive_witness :
    (postOrders sampleRuntime overflowRequest sampleStore).1 =
      .reply ⟨201, .orderOk overflowOrder⟩ ∧
    overflowOrder.serialise.items.map (fun l => l.quantity) = [.null, .num (.fin (3 / 2))] ∧
    ∃ o : Order, (⟨201, .orderOk overflowOrder⟩ : Response).body = .orderOk o ∧
      (⟨201, .orderOk overflowOrder⟩ : Response).wire.body = .orderOk o.serialise ∧
      (∀ l ∈ o.items, ∃ q : JsNum, l.quantity = .num q ∧ JsNum.Positive q) ∧
      (∀ l ∈ o.serialise.items,
        (∃ a : ℚ, 0 < a ∧ l.quantity = .num (.fin a)) ∨ l.quantity = .null) :=
  ⟨by rw [overflowRequest_run],
    by simp [overflowOrder, Order.serialise, LineItem.serialise, NumOrNull.serialise],
    order_quantities_are_positive sampleRuntime overflowRequest sampleStore
      ⟨201, .orderOk overflowOrder⟩ (by rw [overflowRequest_run]) rfl⟩

theorem orderStep_congr (rt : Runtime) (m : List (String × Product)) (x y : Json)
    (acc : JsNum × List LineItem) (h : SameProductAndQuantity x y) :
    orderStep rt m x acc = orderStep rt m y acc := by
  unfold orderStep
  rw [h.1, h.2]

theorem orderLoop_congr (rt : Runtime) (m : List (String × Product)) (xs ys : List Json)
    (h : List.Forall₂ SameProductAndQuantity xs ys) :
    ∀ acc, orderLoop rt m xs acc = orderLoop rt m ys acc := by
  induction h with
  | nil => intro acc; rfl
  | cons hxy _ ih =>
    intro acc
    simp only [orderLoop]
    rw [orderStep_congr rt m _ _ acc hxy]
    split
    · rfl
    · exact ih _

/-- When the loop on a non-empty result is known, so is the run. -/
theorem postOrders_of_loop (rt : Runtime) (req : OrderRequest) (s : Store) (items : List Json)
    (total : JsNum) (lines : List LineItem)
    (hi : (bodyOrEmpty req.body).field "items" = some (.arr items))
    (hl : orderLoop rt (newProductMap (readProducts s)) items (.fin 0, []) =
      .ok (total, lines))
    (hne : lines ≠ []) :
    postOrders rt req s =
      (.reply ⟨201, .orderOk (orderOf req total lines)⟩,
        writeOrders s (readOrders s ++ [orderOf req total lines])) := by
  cases items with
  | nil =>
    simp only [orderLoop] at hl
    cases hl
    exact absurd rfl hne
  | cons i is =>
    unfold postOrders
    simp only [hi, hl]
    have hlen : lines.length ≠ 0 := fun h0 => hne (List.length_eq_zero.mp h0)
    simp [hlen, orderOf]

/-- C3: for every accepted order, each line item carries the identifier,
name and price of a product of the catalogue read at submission time, and
its line total is that catalogue price times the quantity (a price stored as
`null` counts as 0 in the product, as in JavaScript); a second
submission against the same catalogue whose items agree one by one with the
first on `productId` and `quantity`, whatever else the client put in them
(and whatever the customer, the clock and the stored orders), is accepted
with the same line items and the same total. -/
theorem order_lines_come_from_catalog (rt : Runtime) (req req2 : OrderRequest) (s s2 : Store)
    (r : Response) (items items2 : List Json)
    (h : (postOrders rt req s).1 = .reply r) (h201 : r.status = 201)
    (hcat : readProducts s2 = readProducts s)
    (hi : (bodyOrEmpty req.body).field "items" = some (.arr items))
    (hi2 : (bodyOrEmpty req2.body).field "items" = some (.arr items2))
    (hagree : List.Forall₂ SameProductAndQuantity items items2) :
    ∃ o : Order, r.body = .orderOk o ∧
      (∀ l ∈ o.items, ∃ p ∈ readProducts s, l.productId = p.id ∧ l.name = p.name ∧
        l.price = p.price ∧
        l.lineTotal = .num (JsNum.mul p.price.toNumber l.quantity.toNumber)) ∧
      ∃ o2 : Order, (postOrders rt req2 s2).1 = .reply ⟨201, .orderOk o2⟩ ∧
        o2.items = o.items ∧ o2.total = o.total := by
  obtain ⟨items1, total, lines, hi1, hloop, hne, hr, _⟩ := postOrders_accepted rt req s r h h201
  rw [hi] at hi1
  cases hi1
  obtain ⟨new, h2, _, hl⟩ := orderLoop_ok rt _ items _ _ hloop
  simp only [List.nil_append] at h2
  subst h2
  subst hr
  refine ⟨orderOf req total lines, rfl, ?_, ?_⟩
  · intro l hmem
    obtain ⟨k, p, hlook, hid, hname, hprice, hlt, _⟩ := hl l hmem
    have hp := newProductMap_lookup (readProducts s) k p hlook
    exact ⟨p, hp.1, hid, hname, hprice, by rw [hlt, hprice]⟩
  · have hloop2 : orderLoop rt (newProductMap (readProducts s2)) items2 (.fin 0, []) =
        .ok (total, lines) := by
      rw [hcat, ← orderLoop_congr rt _ items items2 hagree]
      exact hloop
    refine ⟨orderOf req2 total lines, ?_, rfl, rfl⟩
    rw [postOrders_of_loop rt req2 s2 items2 total lines hi2 hloop2 hne]

/-- Witness for C3: the mixed request and its tampered copy, against the
sample catalogue, give the same two lines and the same total. -/
theorem order_lines_come_from_catalog_witness :
    (postOrders sampleRuntime mixedRequest sampleStore).1 = .reply ⟨201, .orderOk mixedOrder⟩ ∧
    ∃ o : Order, (⟨201, .orderOk mixedOrder⟩ : Response).body = .orderOk o ∧
      (∀ l ∈ o.items, ∃ p ∈ readProducts sampleStore, l.productId = p.id ∧ l.name = p.name ∧
        l.price = p.price ∧
        l.lineTotal = .num (JsNum.mul p.price.toNumber l.quantity.toNumber)) ∧
      ∃ o2 : Order, (postOrders sampleRuntime tamperedRequest laterStore).1 =
          .reply ⟨201, .orderOk o2⟩ ∧
        o2.items = o.items ∧ o2.total = o.total :=
  ⟨by rw [mixedRequest_run],
    order_lines_come_from_catalog sampleRuntime mixedRequest tamperedRequest sampleStore
      laterStore ⟨201, .orderOk mixedOrder⟩
      [itemJson "p1" (.num (.fin 3)), itemJson "nope" (.num (.fin 1)), itemJson "p2" (.str "2")]
      [.obj [("productId", .str "p1"), ("quantity", .num (.fin 3)),
          ("price", .num (.fin (1 / 100)))],
        .obj [("name", .str "Free"), ("productId", .str "nope"), ("quantity", .num (.fin 1))],
        .obj [("productId", .str "p2"), ("lineTotal", .num (.fin 0)), ("quantity", .str "2")]]
      (by rw [mixedRequest_run]) rfl rfl
      (by simp [mixedRequest, orderRequest, bodyOrEmpty, Json.orElse, Json.truthy, Json.field,
        List.lookup])
      (by simp [tamperedRequest, bodyOrEmpty, Json.orElse, Json.truthy, Json.field,
        List.lookup])
      (by
        refine .cons ?_ (.cons ?_ (.cons ?_ .nil)) <;>
          simp [SameProductAndQuantity, itemJson, Json.getProp, Json.field, List.lookup])⟩

/-- When no item names a product of the map, the loop pushes nothing. -/
theorem orderLoop_unknown (rt : Runtime) (m : List (String × Product)) :
    ∀ (items : List Json) (acc : JsNum × List LineItem),
      (∀ item ∈ items, ∀ pid, item.getProp "productId" = .ok pid → mapGet m pid = none) →
      (∃ e, orderLoop rt m items acc = .error e) ∨ orderLoop rt m items acc = .ok acc := by
  intro items
  induction items with
  | nil => intro acc _; right; rfl
  | cons item rest ih =>
    intro acc hun
    have hstep : (∃ e, orderStep rt m item acc = .error e) ∨ orderStep rt m item acc = .ok acc := by
      unfold orderStep
      split
      · exact Or.inl ⟨_, rfl⟩
      · rename_i pid hpid
        have hnone := hun item (List.mem_cons_self _ _) pid hpid
        split
        · exact Or.inl ⟨_, rfl⟩
        · split
          · exact Or.inl ⟨_, rfl⟩
          · simp [hnone]
    simp only [orderLoop]
    rcases hstep with ⟨e, he⟩ | hok
    · rw [he]
      exact Or.inl ⟨e, rfl⟩
    · rw [hok]
      exact ih acc (fun it hit => hun it (List.mem_cons_of_mem _ hit))

/-- A key that is the identifier of no product finds nothing in the map. -/
theorem mapGet_unknown (products : List Product) (k : String)
    (h : ∀ p ∈ products, p.id ≠ k) :
    mapGet (newProductMap products) (some (.str k)) = none := by
  simp only [mapGet]
  cases hl : (newProductMap products).lookup k with
  | none => rfl
  | some p =>
    have hp := newProductMap_lookup products k p hl
    exact absurd hp.2 (h p hp.1)

/-- C5: on the explicit state (products, orders), for every runtime, request
and store: a submission that is not accepted with status 201 - a 400 reply or
an uncaught exception - leaves the store as it was; in particular a
submission whose items all name identifiers of no stored product leaves it
as it was; an accepted submission leaves the products unchanged and appends
exactly the returned order - the order as the client receives it, whose
status is "received" - after the stored orders, which read back as they did
before. -/
theorem order_submission_frame (rt : Runtime) (req : OrderRequest) (s : Store) :
    ((∀ r, (postOrders rt req s).1 = .reply r → r.status ≠ 201) →
      (postOrders rt req s).2 = s) ∧
    (∀ items, (bodyOrEmpty req.body).field "items" = some (.arr items) →
      (∀ item ∈ items, ∀ k, item.getProp "productId" = .ok (some (.str k)) →
        ∀ p ∈ s.products, p.id ≠ k) →
      (∀ r, (postOrders rt req s).1 = .reply r → r.status = 400) ∧
        (postOrders rt req s).2 = s) ∧
    (∀ r, (postOrders rt req s).1 = .reply r → r.status = 201 →
      ∃ o : Order, r.body = .orderOk o ∧ r.wire.body = .orderOk o.serialise ∧
        o.serialise.status = "received" ∧
        (postOrders rt req s).2.products = s.products ∧
        (postOrders rt req s).2.orders = readOrders s ++ [o.serialise] ∧
        readOrders (postOrders rt req s).2 = readOrders s ++ [o.serialise]) := by
  refine ⟨?_, ?_, ?_⟩
  · intro hrej
    rcases postOrders_cases rt req s with hc | ⟨e, hc⟩ | hc | ⟨items, total, lines, _, _, _, hc⟩
    · rw [hc]
    · rw [hc]
    · rw [hc]
    · exact absurd rfl (hrej _ (by rw [hc]))
  · intro items hi hun
    have hun2 : ∀ item ∈ items, ∀ pid, item.getProp "productId" = .ok pid →
        mapGet (newProductMap (readProducts s)) pid = none := by
      intro item hmem pid hpid
      cases pid with
      | none => rfl
      | some v =>
        cases v with
        | str k =>
          apply mapGet_unknown (readProducts s) k
          intro p hp
          simp only [readProducts, List.mem_map] at hp
          obtain ⟨p0, hp0, rfl⟩ := hp
          exact hun item hmem k hpid p0 hp0
        | _ => rfl
    rcases postOrders_cases rt req s with hc | ⟨e, hc⟩ | hc | ⟨items1, total, lines, hi1, hl, hne, _⟩
    · rw [hc]
      exact ⟨fun r hr => (by cases hr; rfl), rfl⟩
    · rw [hc]
      exact ⟨fun r hr => (by cases hr), rfl⟩
    · rw [hc]
      exact ⟨fun r hr => (by cases hr; rfl), rfl⟩
    · rw [hi] at hi1
      cases hi1
      rcases orderLoop_unknown rt _ items (.fin 0, []) hun2 with ⟨e, he⟩ | hok
      · rw [he] at hl
        cases hl
      · rw [hok] at hl
        cases hl
        exact absurd rfl hne
  · intro r h h201
    obtain ⟨items, total, lines, _, _, _, hr, hs⟩ := postOrders_accepted rt req s r h h201
    subst hr
    have hraw : (postOrders rt req s).2.orders =
        readOrders s ++ [(orderOf req total lines).serialise] := by
      rw [hs]
      simp [writeOrders, map_serialise_readOrders]
    refine ⟨orderOf req total lines, rfl, rfl, rfl, by rw [hs]; rfl, hraw, ?_⟩
    rw [hs, readOrders_writeOrders]
    simp [map_serialise_readOrders]

/-- Witness for C5: the mixed request appends its order to the sample
store; the request naming only unknown products is answered 400 and leaves
the store as it was. -/
theorem order_submission_frame_witness :
    (∃ o : Order, (postOrders sampleRuntime mixedRequest sampleStore).1 =
        .reply ⟨201, .orderOk o⟩ ∧
      (⟨201, .orderOk o⟩ : Response).wire.body = .orderOk o.serialise ∧
      o.serialise.status = "received" ∧
      (postOrders sampleRuntime mixedRequest sampleStore).2.products = sampleStore.products ∧
      (postOrders sampleRuntime mixedRequest sampleStore).2.orders =
        readOrders sampleStore ++ [o.serialise] ∧
      readOrders (postOrders sampleRuntime mixedRequest sampleStore).2 =
        readOrders sampleStore ++ [o.serialise]) ∧
    (∀ r, (postOrders sampleRuntime unknownOnlyRequest laterStore).1 = .reply r →
      r.status = 400) ∧
    (postOrders sampleRuntime unknownOnlyRequest laterStore).2 = laterStore := by
  constructor
  · obtain ⟨o, ho, hw, hst, hp, hraw, hord⟩ :=
      (order_submission_frame sampleRuntime mixedRequest sampleStore).2.2
        ⟨201, .orderOk mixedOrder⟩ (by rw [mixedRequest_run]) rfl
    cases ho
    exact ⟨mixedOrder, by rw [mixedRequest_run], hw, hst, hp, hraw, hord⟩
  · refine (order_submission_frame sampleRuntime unknownOnlyRequest laterStore).2.1
      [itemJson "nope" (.num (.fin 1)), itemJson "gone" (.num (.fin 2))]
      (by simp [unknownOnlyRequest, orderRequest, bodyOrEmpty, Json.orElse, Json.truthy,
        Json.field, List.lookup]) ?_
    intro item hitem k hk p hp
    simp only [List.mem_cons, List.mem_singleton, List.not_mem_nil, or_false] at hitem
    simp only [laterStore, List.mem_cons, List.mem_singleton, List.not_mem_nil, or_false] at hp
    rcases hitem with rfl | rfl <;> rcases hp with rfl | rfl <;>
      simp [itemJson, Json.getProp, Json.field, List.lookup] at hk <;>
      simp [kale, rice, ← hk]

/-- C2: the handler at a failing input. On the sample store, whatever the
runtime, a request for three units of kale followed by a `null` item ends in
an uncaught `TypeError` and stores nothing, where the claim has the `null`
item dropped and the kale line kept. -/
theorem null_item_aborts_order (rt : Runtime) :
    postOrders rt kaleThenNullRequest sampleStore = (.uncaught .typeError, sampleStore) := by
  simp [postOrders, kaleThenNullRequest, orderRequest, sampleStore, bodyOrEmpty, Json.orElse,
    Json.truthy, Json.field, List.lookup, readProducts, newProductMap, mapSet, kale, rice,
    orderLoop, orderStep, Json.getProp, itemJson, mapGet, Json.toNumber, JsNum.orZero,
    JsNum.leZero, JsNum.mul, JsNum.add, Product.serialise, Json.serialise,
    NumOrNull.serialise, NumOrNull.toNumber]
  norm_num

/-- C4: the handler at a failing input. For every runtime and store, the
body `{items: [null], customer: ...}` ends in an uncaught `TypeError`: the
reply is neither of the two 400 replies nor a 201. -/
theorem null_item_is_uncaught (rt : Runtime) (s : Store) :
    postOrders rt nullItemRequest s = (.uncaught .typeError, s) := by
  simp [postOrders, nullItemRequest, orderRequest, bodyOrEmpty, Json.orElse, Json.truthy,
    Json.field, List.lookup, orderLoop, orderStep, Json.getProp]

/-! ## Product creation and listing -/

theorem notStrictEq_eq_false (apiKey : Option Json) (key : String) :
    notStrictEq apiKey key = false ↔ apiKey = some (.str key) := by
  unfold notStrictEq
  split
  · rename_i k
    simp
  · rename_i hne
    simp only [Bool.true_eq_false, false_iff]
    intro h
    exact hne key h

/-- The three ways a run of `POST /api/products` can end. -/
theorem postProducts_cases (env : Env) (req : ProductRequest) (s : Store) :
    (suppliedKey req ≠ some (.str (ADMIN_API_KEY env)) ∧
      postProducts env req s = (.reply ⟨401, .error "Unauthorized"⟩, s)) ∨
    (suppliedKey req = some (.str (ADMIN_API_KEY env)) ∧
      (¬ ∃ name price, (bodyOrEmpty req.body).field "name" = some name ∧ name.truthy = true ∧
        (bodyOrEmpty req.body).field "price" = some (.num price)) ∧
      postProducts env req s =
        (.reply ⟨400, .error "Missing required fields: name, price"⟩, s)) ∨
    (suppliedKey req = some (.str (ADMIN_API_KEY env)) ∧
      ∃ name price, (bodyOrEmpty req.body).field "name" = some name ∧ name.truthy = true ∧
        (bodyOrEmpty req.body).field "price" = some (.num price) ∧
        postProducts env req s =
          (.reply ⟨201, .product (productOf req name price)⟩,
            writeProducts s (readProducts s ++ [productOf req name price]))) := by
  unfold postProducts
  simp only
  cases hk : notStrictEq (suppliedKey req) (ADMIN_API_KEY env) with
  | true =>
    left
    refine ⟨?_, by simp⟩
    intro h
    rw [(notStrictEq_eq_false _ _).mpr h] at hk
    cases hk
  | false =>
    right
    have hkey := (notStrictEq_eq_false _ _).mp hk
    simp only [Bool.false_eq_true, if_false]
    split
    · rename_i name price hname hprice
      cases ht : name.truthy with
      | true =>
        right
        exact ⟨hkey, name, price, hname, ht, hprice, by simp [productOf]⟩
      | false =>
        left
        refine ⟨hkey, ?_, by simp⟩
        rintro ⟨name1, price1, h1, h2, _⟩
        rw [hname] at h1
        cases h1
        rw [ht] at h2
        cases h2
    · rename_i hno
      left
      refine ⟨hkey, ?_, by simp⟩
      rintro ⟨name1, price1, h1, _, h3⟩
      exact hno name1 price1 h1 h3

/-- The store an accepted creation leaves: the products read, followed by the
new record as `JSON.stringify` writes it. -/
theorem writeProducts_append (s : Store) (p : Product) :
    writeProducts s (readProducts s ++ [p]) =
      { products := readProducts s ++ [p.serialise], orders := s.orders } := by
  simp [writeProducts, map_serialise_readProducts]

theorem emptyHeaderRequest_run :
    postProducts defaultEnv emptyHeaderRequest sampleStore =
      (.reply ⟨201, .product newKale⟩, { products := [kale, rice, newKale], orders := [] }) := by
  simp [postProducts, defaultEnv, emptyHeaderRequest, sampleStore, suppliedKey, notStrictEq,
    ADMIN_API_KEY, bodyOrEmpty, Json.orElse, Json.truthy, Json.field, List.lookup, kaleDraft,
    readProducts, writeProducts, stockOrDefault, newKale, sampleClock, kale, rice,
    Product.serialise, Json.serialise, NumOrNull.serialise]

/-- C6, as stated, fails: with an empty `x-api-key` header and the secret in
the `apiKey` query parameter, the key the claim calls supplied is the header,
which differs from the secret, yet the product is created (status 201) and
the products collection grows. -/
theorem empty_header_falls_back_to_query :
    describedKey emptyHeaderRequest ≠ some (.str (ADMIN_API_KEY defaultEnv)) ∧
    postProducts defaultEnv emptyHeaderRequest sampleStore =
      (.reply ⟨201, .product newKale⟩, { products := [kale, rice, newKale], orders := [] }) ∧
    sampleStore.products = [kale, rice] :=
  ⟨by simp [describedKey, emptyHeaderRequest, ADMIN_API_KEY, defaultEnv],
    emptyHeaderRequest_run, rfl⟩

/-- C6, amended: for every environment, store and creation request (whatever
its body) whose supplied key - the `x-api-key` header when it is a non-empty
string, the `apiKey` query parameter otherwise - is missing or is not the
configured admin secret, the reply is 401 with error "Unauthorized" and the
store, hence the products collection, is unchanged; repeating the request
gives the same result. -/
theorem unauthorized_creation_is_rejected (env : Env) (req : ProductRequest) (s : Store)
    (h : suppliedKey req ≠ some (.str (ADMIN_API_KEY env))) :
    postProducts env req s = (.reply ⟨401, .error "Unauthorized"⟩, s) ∧
    postProducts env req (postProducts env req s).2 =
      (.reply ⟨401, .error "Unauthorized"⟩, s) := by
  have key : ∀ t, postProducts env req t = (.reply ⟨401, .error "Unauthorized"⟩, t) := by
    intro t
    rcases postProducts_cases env req t with ⟨_, hc⟩ | ⟨hk, _⟩ | ⟨hk, _⟩
    · exact hc
    · exact absurd hk h
    · exact absurd hk h
  constructor
  · exact key s
  · rw [key s]
    exact key s

/-- Witness for the amended C6: a request without any key. -/
theorem unauthorized_creation_is_rejected_witness :
    suppliedKey anonymousRequest ≠ some (.str (ADMIN_API_KEY defaultEnv)) ∧
    postProducts defaultEnv anonymousRequest sampleStore =
      (.reply ⟨401, .error "Unauthorized"⟩, sampleStore) ∧
    postProducts defaultEnv anonymousRequest
        (postProducts defaultEnv anonymousRequest sampleStore).2 =
      (.reply ⟨401, .error "Unauthorized"⟩, sampleStore) :=
  ⟨by simp [suppliedKey, anonymousRequest],
    unauthorized_creation_is_rejected defaultEnv anonymousRequest sampleStore
      (by simp [suppliedKey, anonymousRequest])⟩

theorem createAll_listed (env : Env) :
    ∀ (reqs : List ProductRequest) (s : Store) (ps : List Product),
      (createAll env reqs s).1 = ps.map (fun p => Outcome.reply ⟨201, .product p⟩) →
      readProducts (createAll env reqs s).2 = readProducts s ++ ps.map Product.serialise := by
  intro reqs
  induction reqs with
  | nil =>
    intro s ps h
    cases ps with
    | nil => simp [createAll]
    | cons p rest => simp [createAll] at h
  | cons req rest ih =>
    intro s ps h
    cases ps with
    | nil => simp [createAll] at h
    | cons p tail =>
      simp only [createAll, List.map_cons, List.cons.injEq] at h
      obtain ⟨hhead, htail⟩ := h
      have hstep : readProducts (postProducts env req s).2 =
          readProducts s ++ [p.serialise] := by
        rcases postProducts_cases env req s with ⟨_, hc⟩ | ⟨_, _, hc⟩ | ⟨_, n, q, _, _, _, hc⟩
        · rw [hc] at hhead
          simp at hhead
        · rw [hc] at hhead
          simp at hhead
        · rw [hc] at hhead ⊢
          simp only [Outcome.reply.injEq, Response.mk.injEq, ResBody.product.injEq,
            true_and] at hhead
          rw [hhead, readProducts_writeProducts]
          simp [map_serialise_readProducts]
      simp only [createAll]
      rw [ih _ tail htail, hstep]
      simp

theorem listedProducts_eq (s : Store) : listedProducts s = readProducts s := by
  simp [listedProducts, getProducts, Response.wire, ResBody.wire, map_serialise_readProducts]

/-- C7: for every environment and store, after a successful creation (201)
the listing a client gets from `GET /api/products` is the listing before it
followed by the created product, as the creation reply carries it to the
client; hence after a sequence of successful creations the listing is the one
before them followed by the created products in creation order. -/
theorem created_products_are_listed_in_order (env : Env) (s : Store) :
    (∀ req r, (postProducts env req s).1 = .reply r → r.status = 201 →
      ∃ p, r.body = .product p ∧ r.wire.body = .product p.serialise ∧
        listedProducts (postProducts env req s).2 = listedProducts s ++ [p.serialise]) ∧
    (∀ (reqs : List ProductRequest) (ps : List Product),
      (createAll env reqs s).1 = ps.map (fun p => Outcome.reply ⟨201, .product p⟩) →
      listedProducts (createAll env reqs s).2 =
        listedProducts s ++ ps.map Product.serialise) := by
  constructor
  · intro req r h h201
    rcases postProducts_cases env req s with ⟨_, hc⟩ | ⟨_, _, hc⟩ | ⟨_, n, q, _, _, _, hc⟩
    · rw [hc] at h
      cases h
      simp at h201
    · rw [hc] at h
      cases h
      simp at h201
    · rw [hc] at h ⊢
      cases h
      refine ⟨productOf req n q, rfl, rfl, ?_⟩
      rw [listedProducts_eq, listedProducts_eq, readProducts_writeProducts]
      simp [map_serialise_readProducts]
  · intro reqs ps h
    rw [listedProducts_eq, listedProducts_eq]
    exact createAll_listed env reqs s ps h

theorem two_creations_run :
    (createAll defaultEnv [adminRequest kaleDraft, oatsRequest] sampleStore).1 =
      [newKale, newOats].map (fun p => Outcome.reply ⟨201, .product p⟩) := by
  simp [createAll, postProducts, defaultEnv, adminRequest, oatsRequest, sampleStore, suppliedKey,
    notStrictEq, ADMIN_API_KEY, bodyOrEmpty, Json.orElse, Json.truthy, Json.field, List.lookup,
    kaleDraft, oatsDraft, readProducts, writeProducts, stockOrDefault, newKale, newOats,
    sampleClock]

/-- Witness for C7: Kale then Oats, created on the sample store, are listed
after the two stored products, in that order. -/
theorem created_products_are_listed_in_order_witness :
    (createAll defaultEnv [adminRequest kaleDraft, oatsRequest] sampleStore).1 =
      [newKale, newOats].map (fun p => Outcome.reply ⟨201, .product p⟩) ∧
    listedProducts (createAll defaultEnv [adminRequest kaleDraft, oatsRequest] sampleStore).2 =
      listedProducts sampleStore ++ [newKale, newOats].map Product.serialise ∧
    listedProducts sampleStore = [kale, rice] ∧
    [newKale, newOats].map Product.serialise = [newKale, newOats] :=
  ⟨two_creations_run,
    (created_products_are_listed_in_order defaultEnv sampleStore).2
      [adminRequest kaleDraft, oatsRequest] [newKale, newOats] two_creations_run,
    by simp [listedProducts_eq, readProducts, sampleStore, kale, rice, Product.serialise,
      Json.serialise, NumOrNull.serialise],
    by simp [newKale, newOats, Product.serialise, Json.serialise, NumOrNull.serialise]⟩

theorem bodyOrEmpty_of_field (draft : Json) (k : String) (x : Json)
    (h : draft.field k = some x) : bodyOrEmpty (some draft) = draft := by
  cases draft with
  | obj kvs => simp [bodyOrEmpty, Json.orElse, Json.truthy]
  | _ => simp [Json.field] at h

theorem orElse_none (d : Json) : Json.orElse none d = d := rfl

theorem Json.eq_str_of_serialise (v : Json) (t : String) (h : v.serialise = .str t) :
    v = .str t := by
  cases v with
  | num x => cases x <;> simp [Json.serialise] at h
  | str s => simpa [Json.serialise] using h
  | _ => simp [Json.serialise] at h

/-- C8, as stated, fails: the authorised draft `{name: "", price: 2}` has a
name and a numeric price, and creation answers 400 and stores nothing. -/
theorem blank_name_is_rejected :
    suppliedKey (adminRequest blankNameDraft) = some (.str (ADMIN_API_KEY defaultEnv)) ∧
    blankNameDraft.field "name" = some (.str "") ∧
    blankNameDraft.field "price" = some (.num (.fin 2)) ∧
    postProducts defaultEnv (adminRequest blankNameDraft) sampleStore =
      (.reply ⟨400, .error "Missing required fields: name, price"⟩, sampleStore) := by
  refine ⟨?_, ?_, ?_, ?_⟩
  · simp [suppliedKey, adminRequest, ADMIN_API_KEY, defaultEnv]
  · simp [blankNameDraft, Json.field, List.lookup]
  · simp [blankNameDraft, Json.field, List.lookup]
  · simp [postProducts, defaultEnv, adminRequest, suppliedKey, notStrictEq, ADMIN_API_KEY,
      bodyOrEmpty, Json.orElse, Json.truthy, Json.field, List.lookup, blankNameDraft]

/-- C8, amended: for every authorised draft whose name is truthy (present
and not `null`, `false`, `0` or the empty string) and whose price is a
number, creation answers 201 and appends one record to the products. The
handler builds it with the given name and price; the client receives it, and
the file holds it, as `JSON.stringify` writes it: the name and the price
serialised - a name that is a string and a price that is finite unchanged,
`null` in place of a price that is not finite, such as `1e999` - and, for
every optional field absent from the draft, the default: unit "unit", stock
100, imageUrl "", description "", category "General". -/
theorem authorised_creation_applies_defaults (env : Env) (req : ProductRequest) (s : Store)
    (draft name : Json) (price : JsNum)
    (hkey : suppliedKey req = some (.str (ADMIN_API_KEY env)))
    (hbody : req.body = some draft)
    (hname : draft.field "name" = some name) (htruthy : name.truthy = true)
    (hprice : draft.field "price" = some (.num price)) :
    ∃ p : Product,
      postProducts env req s =
        (.reply ⟨201, .product p⟩,
          { products := readProducts s ++ [p.serialise], orders := s.orders }) ∧
      (⟨201, .product p⟩ : Response).wire = ⟨201, .product p.serialise⟩ ∧
      p.name = name ∧ p.price = .num price ∧
      p.serialise.name = name.serialise ∧
      p.serialise.price = (NumOrNull.num price).serialise ∧
      (∀ t : String, name = .str t → p.serialise.name = .str t) ∧
      (∀ q : ℚ, price = .fin q → p.serialise.price = .num (.fin q)) ∧
      ((∀ q : ℚ, price ≠ .fin q) → p.serialise.price = .null) ∧
      (draft.field "unit" = none → p.serialise.unit = .str "unit") ∧
      (draft.field "stock" = none → p.serialise.stock = .num (.fin 100)) ∧
      (draft.field "imageUrl" = none → p.serialise.imageUrl = .str "") ∧
      (draft.field "description" = none → p.serialise.description = .str "") ∧
      (draft.field "category" = none → p.serialise.category = .str "General") := by
  have hb : bodyOrEmpty req.body = draft := by
    rw [hbody]
    exact bodyOrEmpty_of_field draft "name" name hname
  rcases postProducts_cases env req s with ⟨hk, _⟩ | ⟨_, hno, _⟩ | ⟨_, n, q, hn, _, hq, hc⟩
  · exact absurd hkey hk
  · exact absurd ⟨name, price, by rw [hb]; exact hname, htruthy, by rw [hb]; exact hprice⟩ hno
  · rw [hb] at hn hq
    rw [hname] at hn
    rw [hprice] at hq
    cases hn
    cases hq
    rw [writeProducts_append] at hc
    refine ⟨productOf req name price, hc, rfl, rfl, rfl, rfl, rfl, ?_, ?_, ?_, ?_, ?_, ?_, ?_, ?_⟩
    · intro t ht
      simp [productOf, Product.serialise, ht, Json.serialise]
    · intro q hq
      simp [productOf, Product.serialise, hq, NumOrNull.serialise]
    · intro hq
      cases price with
      | fin q => exact absurd rfl (hq q)
      | _ => rfl
    · intro h0
      simp [productOf, Product.serialise, hb, h0, orElse_none, Json.serialise]
    · intro h0
      simp [productOf, Product.serialise, hb, h0, stockOrDefault, NumOrNull.serialise]
    · intro h0
      simp [productOf, Product.serialise, hb, h0, orElse_none, Json.serialise]
    · intro h0
      simp [productOf, Product.serialise, hb, h0, orElse_none, Json.serialise]
    · intro h0
      simp [productOf, Product.serialise, hb, h0, orElse_none, Json.serialise]

/-- Witness for the amended C8: with the secret `devkey`, the draft
`{name: "Kale", price: 2.0}` is stored with unit "unit", stock 100 and
category "General"; the draft `{name: "Gold", price: 1e999}` is stored with
the price `null`. -/
theorem authorised_creation_applies_defaults_witness :
    (∃ p : Product,
      postProducts defaultEnv (adminRequest kaleDraft) sampleStore =
        (.reply ⟨201, .product p⟩,
          { products := readProducts sampleStore ++ [p.serialise],
            orders := sampleStore.orders }) ∧
      p.serialise.name = .str "Kale" ∧ p.serialise.price = .num (.fin 2) ∧
      p.serialise.unit = .str "unit" ∧ p.serialise.stock = .num (.fin 100) ∧
      p.serialise.imageUrl = .str "" ∧ p.serialise.description = .str "" ∧
      p.serialise.category = .str "General") ∧
    (∃ p : Product,
      postProducts defaultEnv (adminRequest goldDraft) sampleStore =
        (.reply ⟨201, .product p⟩,
          { products := readProducts sampleStore ++ [p.serialise],
            orders := sampleStore.orders }) ∧
      p.price = .num .posInf ∧ p.serialise.name = .str "Gold" ∧
      p.serialise.price = .null) := by
  constructor
  · obtain ⟨p, hrun, _, _, _, _, _, hn, hp, _, hu, hs, hi, hd, hc⟩ :=
      authorised_creation_applies_defaults defaultEnv (adminRequest kaleDraft) sampleStore
        kaleDraft (.str "Kale") (.fin 2)
        (by simp [suppliedKey, adminRequest, ADMIN_API_KEY, defaultEnv])
        rfl
        (by simp [kaleDraft, Json.field, List.lookup])
        (by simp [Json.truthy])
        (by simp [kaleDraft, Json.field, List.lookup])
    exact ⟨p, hrun, hn "Kale" rfl, hp 2 rfl,
      hu (by simp [kaleDraft, Json.field, List.lookup]),
      hs (by simp [kaleDraft, Json.field, List.lookup]),
      hi (by simp [kaleDraft, Json.field, List.lookup]),
      hd (by simp [kaleDraft, Json.field, List.lookup]),
      hc (by simp [kaleDraft, Json.field, List.lookup])⟩
  · obtain ⟨p, hrun, _, _, hprice, _, _, hn, _, hnull, _⟩ :=
      authorised_creation_applies_defaults defaultEnv (adminRequest goldDraft) sampleStore
        goldDraft (.str "Gold") .posInf
        (by simp [suppliedKey, adminRequest, ADMIN_API_KEY, defaultEnv])
        rfl
        (by simp [goldDraft, Json.field, List.lookup])
        (by simp [Json.truthy])
        (by simp [goldDraft, Json.field, List.lookup])
    exact ⟨p, hrun, hprice, hn "Gold" rfl, hnull (fun q hq => by cases hq)⟩

theorem createAll_nonneg (env : Env) :
    ∀ (reqs : List ProductRequest) (s : Store),
      (∀ r ∈ reqs, ∀ x, (bodyOrEmpty r.body).field "price" = some (.num x) →
        ∃ q : ℚ, 0 ≤ q ∧ x = .fin q) →
      (∀ p ∈ readProducts s, NonNegativePrice p) →
      ∀ p ∈ readProducts (createAll env reqs s).2, NonNegativePrice p := by
  intro reqs
  induction reqs with
  | nil =>
    intro s _ hs p hp
    exact hs p hp
  | cons req rest ih =>
    intro s hreqs hs
    simp only [createAll]
    apply ih _ (fun r hr => hreqs r (List.mem_cons_of_mem _ hr))
    rcases postProducts_cases env req s with ⟨_, hc⟩ | ⟨_, _, hc⟩ | ⟨_, n, x, _, _, hx, hc⟩
    · rw [hc]
      exact hs
    · rw [hc]
      exact hs
    · rw [hc, readProducts_writeProducts]
      intro p hp
      simp only [List.map_append, map_serialise_readProducts, List.map_cons, List.map_nil,
        List.mem_append, List.mem_singleton] at hp
      rcases hp with hp | rfl
      · exact hs p hp
      · obtain ⟨q, hq, rfl⟩ := hreqs req (List.mem_cons_self _ _) x hx
        exact ⟨q, hq, rfl⟩

/-- C10, as stated, fails: the authorised draft `{name: "Kale", price: -1}`
is stored, on a store with no product at all, with the negative price -1. -/
theorem negative_price_is_stored :
    suppliedKey (adminRequest negativeDraft) = some (.str (ADMIN_API_KEY defaultEnv)) ∧
    postProducts defaultEnv (adminRequest negativeDraft) emptyStore =
      (.reply ⟨201, .product negativeKale⟩, { products := [negativeKale], orders := [] }) ∧
    negativeKale.serialise = negativeKale ∧
    negativeKale.price = .num (.fin (-1)) ∧ (-1 : ℚ) < 0 ∧
    (∀ p ∈ readProducts emptyStore, NonNegativePrice p) := by
  refine ⟨?_, ?_, ?_, rfl, by norm_num, ?_⟩
  · simp [suppliedKey, adminRequest, ADMIN_API_KEY, defaultEnv]
  · simp [postProducts, defaultEnv, adminRequest, suppliedKey, notStrictEq, ADMIN_API_KEY,
      bodyOrEmpty, Json.orElse, Json.truthy, Json.field, List.lookup, negativeDraft, emptyStore,
      readProducts, writeProducts, stockOrDefault, negativeKale, sampleClock,
      Product.serialise, Json.serialise, NumOrNull.serialise]
  · simp [negativeKale, Product.serialise, Json.serialise, NumOrNull.serialise]
  · simp [emptyStore, readProducts]

/-- C10, amended: for every authorised draft, creation either answers 400
"Missing required fields: name, price" and stores nothing, or appends one
product, built from a truthy name and a numeric price, whose stored name is
that name as `JSON.stringify` writes it and is not the empty string, and
whose stored price is the number given in the draft, of either sign, when it
is finite, and `null` when it is not (`1e999`); and starting from products
whose prices are all numbers greater than or equal to zero, every collection
reached by creation requests whose drafts carry only finite prices greater
than or equal to zero has that property too. -/
theorem authorised_creation_validates_name_and_price (env : Env) (req : ProductRequest)
    (s : Store) (hkey : suppliedKey req = some (.str (ADMIN_API_KEY env))) :
    (postProducts env req s =
        (.reply ⟨400, .error "Missing required fields: name, price"⟩, s) ∨
      ∃ (p : Product) (x : JsNum),
        postProducts env req s =
          (.reply ⟨201, .product p⟩,
            { products := readProducts s ++ [p.serialise], orders := s.orders }) ∧
        p.name.truthy = true ∧ p.serialise.name = p.name.serialise ∧
        p.serialise.name ≠ .str "" ∧
        (bodyOrEmpty req.body).field "price" = some (.num x) ∧
        (∀ q : ℚ, x = .fin q → p.serialise.price = .num (.fin q)) ∧
        ((∀ q : ℚ, x ≠ .fin q) → p.serialise.price = .null)) ∧
    (∀ reqs : List ProductRequest,
      (∀ r ∈ reqs, ∀ x, (bodyOrEmpty r.body).field "price" = some (.num x) →
        ∃ q : ℚ, 0 ≤ q ∧ x = .fin q) →
      (∀ p ∈ readProducts s, NonNegativePrice p) →
      ∀ p ∈ readProducts (createAll env reqs s).2, NonNegativePrice p) := by
  constructor
  · rcases postProducts_cases env req s with ⟨hk, _⟩ | ⟨_, _, hc⟩ | ⟨_, n, x, _, ht, hx, hc⟩
    · exact absurd hkey hk
    · exact Or.inl hc
    · rw [writeProducts_append] at hc
      refine Or.inr ⟨productOf req n x, x, hc, ht, rfl, ?_, hx, ?_, ?_⟩
      · intro hempty
        have hn : n = .str "" := Json.eq_str_of_serialise n "" hempty
        rw [hn] at ht
        simp [Json.truthy] at ht
      · intro q hq
        simp [productOf, Product.serialise, hq, NumOrNull.serialise]
      · intro hq
        cases x with
        | fin q => exact absurd rfl (hq q)
        | _ => rfl
  · exact fun reqs => createAll_nonneg env reqs s

/-- Witness for the amended C10: the authorised draft
`{name: "Gold", price: 1e999}` on the sample store is stored with the name
"Gold" and the price `null`. -/
theorem authorised_creation_validates_name_and_price_witness :
    suppliedKey (adminRequest goldDraft) = some (.str (ADMIN_API_KEY defaultEnv)) ∧
    postProducts defaultEnv (adminRequest goldDraft) sampleStore =
      (.reply ⟨201, .product newGold⟩,
        { products := readProducts sampleStore ++ [newGold.serialise],
          orders := sampleStore.orders }) ∧
    newGold.serialise.price = .null ∧
    ((postProducts defaultEnv (adminRequest goldDraft) sampleStore =
        (.reply ⟨400, .error "Missing required fields: name, price"⟩, sampleStore) ∨
      ∃ (p : Product) (x : JsNum),
        postProducts defaultEnv (adminRequest goldDraft) sampleStore =
          (.reply ⟨201, .product p⟩,
            { products := readProducts sampleStore ++ [p.serialise],
              orders := sampleStore.orders }) ∧
        p.name.truthy = true ∧ p.serialise.name = p.name.serialise ∧
        p.serialise.name ≠ .str "" ∧
        (bodyOrEmpty (adminRequest goldDraft).body).field "price" = some (.num x) ∧
        (∀ q : ℚ, x = .fin q → p.serialise.price = .num (.fin q)) ∧
        ((∀ q : ℚ, x ≠ .fin q) → p.serialise.price = .null)) ∧
    (∀ reqs : List ProductRequest,
      (∀ r ∈ reqs, ∀ x, (bodyOrEmpty r.body).field "price" = some (.num x) →
        ∃ q : ℚ, 0 ≤ q ∧ x = .fin q) →
      (∀ p ∈ readProducts sampleStore, NonNegativePrice p) →
      ∀ p ∈ readProducts (createAll defaultEnv reqs sampleStore).2, NonNegativePrice p)) :=
  ⟨by simp [suppliedKey, adminRequest, ADMIN_API_KEY, defaultEnv],
    by simp [postProducts, defaultEnv, adminRequest, suppliedKey, notStrictEq, ADMIN_API_KEY,
      bodyOrEmpty, Json.orElse, Json.truthy, Json.field, List.lookup, goldDraft,
      writeProducts, stockOrDefault, newGold, sampleClock, map_serialise_readProducts],
    rfl,
    authorised_creation_validates_name_and_price defaultEnv (adminRequest goldDraft) sampleStore
      (by simp [suppliedKey, adminRequest, ADMIN_API_KEY, defaultEnv])⟩

end Annsetu
